import Mathlib

/-!
Verification development for the PSP time-and-defect tracking extension
(`ide2py/psp.py`).  The Python module is shallowly embedded: Python strings
are modelled as `List Char` (with a `String` wrapper where convenient),
Python numbers (ints and floats) as exact rationals `ℚ`, fallible code as
`Option`, and the persistent shelve dictionaries as functions
`String → Option record`.  GUI-only effects (grid refresh, row selection,
toolbar enable/disable, widget cell text) are outside the model, as are the
`PSP_PHASES.index` calls that only compute a grid row for refreshing.
Externally visible side effects of the stopwatch mixin (timer control and
event-log appends) are modelled as an ordered trace.
-/

/-! ### Python primitive helpers -/

/-- Truthiness of a Python value that is either `None` or an `int`
(`self.psp_interruption`): `None` and `0` are falsy. -/
def pyTruthy : Option Nat → Bool
  | none => false
  | some n => n != 0

/-- Truthiness of a Python number (`if plan:`): zero is falsy. -/
def pyTruthyQ (q : ℚ) : Bool := q != 0

/-- Python `int()` applied to a number: truncation toward zero. -/
def pyInt (q : ℚ) : Int := if q < 0 then ⌈q⌉ else ⌊q⌋

/-- Python `x or 0` applied to an optional number (the gauge update
`percent or 0`): `None` and `0.0` both give `0`. -/
def pyOrZero : Option ℚ → ℚ
  | none => 0
  | some q => if q != 0 then q else 0

/-- ASCII decimal digit test (`str.isdigit` restricted to the ASCII digits
that occur in the tool's inputs), as an explicit disjunction. -/
def isPyDigit (c : Char) : Bool :=
  c = '0' || c = '1' || c = '2' || c = '3' || c = '4' ||
  c = '5' || c = '6' || c = '7' || c = '8' || c = '9'

/-- Characters a plain numeric user input is made of: digits, the decimal
point, the decimal comma, and a sign. -/
def goodChar (c : Char) : Bool :=
  isPyDigit c || c = '.' || c = ',' || c = '+' || c = '-'

/-- Python `str.lower` on one character (ASCII range). -/
def lowerChar (c : Char) : Char :=
  if 'A' ≤ c ∧ c ≤ 'Z' then Char.ofNat (c.toNat + 32) else c

/-- Python `str.strip()`: drop leading and trailing whitespace. -/
def stripChars (l : List Char) : List Char :=
  ((l.dropWhile Char.isWhitespace).reverse.dropWhile Char.isWhitespace).reverse

/-- Auxiliary accumulator loop for `pySplit`. -/
def pySplitAux : List Char → List Char → List (List Char)
  | [], acc => if acc = [] then [] else [acc.reverse]
  | c :: rest, acc =>
    if c.isWhitespace then
      if acc = [] then pySplitAux rest []
      else acc.reverse :: pySplitAux rest []
    else pySplitAux rest (c :: acc)

/-- Python `str.split()` with no argument: split on runs of whitespace,
discarding empty pieces. -/
def pySplit (l : List Char) : List (List Char) := pySplitAux l []

/-- Python `str.replace(",", ".")` on the numeric part of the user input. -/
def dedot (l : List Char) : List Char :=
  l.map (fun ch => if ch = ',' then '.' else ch)

/-- Digit run to a natural number (`int` semantics of the digit string). -/
def digitsToNat (l : List Char) : Nat :=
  l.foldl (fun acc c => acc * 10 + (c.toNat - '0'.toNat)) 0

/-- Core of Python `float()` after the sign is removed: digits with at most
one decimal point, at least one digit overall.  Exponent notation,
`inf`/`nan` and other exotic float syntax are not used by the tool and are
outside the model (they map to `none`). -/
def parseFloatCore (l : List Char) : Option ℚ :=
  let intPart := l.takeWhile isPyDigit
  let rest := l.dropWhile isPyDigit
  match rest with
  | [] => if intPart = [] then none else some (digitsToNat intPart)
  | '.' :: frac =>
    if frac.all isPyDigit ∧ (intPart ≠ [] ∨ frac ≠ []) then
      some ((digitsToNat intPart : ℚ) + (digitsToNat frac : ℚ) / 10 ^ frac.length)
    else none
  | _ => none

/-- Python `float()` on a string: optional surrounding whitespace, optional
sign, then a plain decimal literal.  `none` models `ValueError`. -/
def parseFloatChars (l : List Char) : Option ℚ :=
  match stripChars l with
  | '+' :: rest => parseFloatCore rest
  | '-' :: rest => (parseFloatCore rest).map Neg.neg
  | l2 => parseFloatCore l2

/-! ### Time formatter and parser (`pretty_time` / `parse_time`) -/

/-- Python `"%0.2f"` formatting, modelled as decimal rounding to two
places.  (Python rounds the binary double to the nearest decimal string;
the values exercised here, such as `1.5`, are exact in both readings.) -/
def format2 (q : ℚ) : String :=
  let n : Int := round (q * 100)
  let sgn := if n < 0 then "-" else ""
  let m : Nat := n.natAbs
  let fracPart := if m % 100 < 10 then "0" ++ toString (m % 100) else toString (m % 100)
  sgn ++ toString (m / 100) ++ "." ++ fracPart

/-- Embedding of `pretty_time(counter)`: truncate to an integer count of
seconds, pick the first unit among `s`/`m`/`h` whose next-higher unit bound
is not reached (the loop leaves `(3600, 'h')` when no bound matches), then
print either an integer or a two-decimal value with the unit suffix. -/
def pretty_time (counter : ℚ) : String :=
  let c : Int := pyInt counter
  let fu : Int × String :=
    if c < 60 then (1, "s") else if c < 3600 then (60, "m") else (3600, "h")
  if c % fu.1 ≠ 0 then
    format2 ((c : ℚ) / (fu.1 : ℚ)) ++ " " ++ fu.2
  else
    toString (c / fu.1) ++ " " ++ fu.2

/-- Embedding of `parse_time(user_input)` on character lists.  Mirrors the
source: strip and lowercase; empty input is `0`; an input containing a
space is split into number and unit (a `ValueError` from unpacking more
than two pieces is `none`); otherwise a trailing non-digit character is the
unit; commas become dots; the unit loop checks `s`, `m`, `h` in order and
leaves the loop variables at `(3600, 'h')` when nothing matches (so an
absent or unknown unit gets factor `3600`). -/
def parse_timeChars (input : List Char) : Option ℚ :=
  let s := (stripChars input).map lowerChar
  if s = [] then some 0
  else
    let tu? : Option (List Char × List Char) :=
      if s.any (· = ' ') then
        match pySplit s with
        | [t, u] => some (t, u)
        | _ => none
      else
        match s.reverse with
        | [] => none
        | c :: rest => if isPyDigit c then some (s, []) else some (rest.reverse, [c])
    match tu? with
    | none => none
    | some (t, u) =>
      let factor : ℚ := if u = ['s'] then 1 else if u = ['m'] then 60 else 3600
      (parseFloatChars (dedot t)).map (· * factor)

/-- `parse_time` on Lean strings. -/
def parse_time (s : String) : Option ℚ := parse_timeChars s.data

/-! ### Phase timing ledger (`PlanSummaryTable`) -/

/-- The six fixed PSP phases. -/
def PSP_PHASES : List String :=
  ["planning", "design", "code", "compile", "test", "postmortem"]

/-- One phase's shelve entry.  The Python code stores a dict with keys among
`plan`/`actual`/`interruption`/`comments` and reads every key through
`.get(key, default)`, so a missing key is observationally the zero/empty
default; the record therefore keeps all four fields, with defaults standing
in for absent keys.  `comments` holds `(message, interruption delta)` pairs. -/
structure PhaseRecord where
  plan : ℚ := 0
  actual : ℚ := 0
  interruption : ℚ := 0
  comments : List (String × Nat) := []
deriving DecidableEq

/-- The `psp_times` shelve: phase name to stored record.  `none` means the
phase key is absent from the shelve (this distinction matters to
`PlanSummaryTable.comment`, which indexes the shelve directly). -/
abbrev Cells := String → Option PhaseRecord

/-- `self.cells.get(phase, {})` followed by defaulted field reads. -/
def getPhase (cells : Cells) (phase : String) : PhaseRecord :=
  (cells phase).getD {}

/-- Store a record under a phase key (`setdefault` followed by item
assignment: the phase key exists afterwards). -/
def setCell (cells : Cells) (phase : String) (d : PhaseRecord) : Cells :=
  fun q => if q = phase then some d else cells q

/-- Embedding of `PlanSummaryTable.count(phase, interruption)`: read the
plan, increment `actual` when `interruption` is falsy and `interruption`
otherwise, and return `value/plan*100` when the plan is truthy, else
nothing.  The grid refresh and row-selection calls are UI-only and outside
the model. -/
def PlanSummaryTable.count (cells : Cells) (phase : String)
    (interruption : Option Nat) : Cells × Option ℚ :=
  let plan := (getPhase cells phase).plan
  if pyTruthy interruption then
    let value := (getPhase cells phase).interruption + 1
    (setCell cells phase { getPhase cells phase with interruption := value },
     if pyTruthyQ plan then some (value / plan * 100) else none)
  else
    let value := (getPhase cells phase).actual + 1
    (setCell cells phase { getPhase cells phase with actual := value },
     if pyTruthyQ plan then some (value / plan * 100) else none)

/-- Embedding of `PlanSummaryTable.comment(phase, message, delta)`.  The
comment list is read through defaulting `.get` calls, but the store-back
`self.cells[key_phase]['comments'] = comments` indexes the shelve directly:
when the phase key is absent this raises `KeyError`, modelled as `none`. -/
def PlanSummaryTable.comment (cells : Cells) (phase message : String)
    (delta : Nat) : Option Cells :=
  let comments := (getPhase cells phase).comments ++ [(message, delta)]
  match cells phase with
  | none => none
  | some d => some (setCell cells phase { d with comments := comments })

/-! ### Defect ledger (`DefectListCtrl`) -/

/-- One defect record, as stored in the `psp_defects` shelve.  `checked`
models the `_checked` fixed flag; `dtype` the `type` key.  Field values the
source stores inconsistently (`type` as int or string) are kept as strings. -/
structure DefectRecord where
  number : String := ""
  description : String := ""
  date : String := ""
  dtype : String := ""
  inject_phase : String := ""
  remove_phase : String := ""
  fix_time : ℚ := 0
  fix_defect : String := ""
  filename : String := ""
  lineno : Int := 0
  offset : Int := 0
  uuid : String := ""
  checked : Bool := false
deriving DecidableEq

/-- The `psp_defects` shelve: defect uuid to record. -/
abbrev DefectStore := String → Option DefectRecord

/-- Embedding of `DefectListCtrl.OnCheckItem(index, flag)` on the store,
with the widget index already resolved through `key_map` to the shelve
`key`, and the host's `GetPSPPhase()` passed as `activePhase`.  `none`
models the `KeyError` of `self.data[key]` on an unknown key.  When the
stored flag already equals `flag` nothing happens; otherwise, on checking,
`remove_phase` is filled with the active phase only if it is falsy (empty),
and the flag is stored.  The log line and widget cell update are outside
the model. -/
def DefectListCtrl.OnCheckItem (data : DefectStore) (key : String)
    (flag : Bool) (activePhase : String) : Option DefectStore :=
  match data key with
  | none => none
  | some item =>
    if item.checked ≠ flag then
      let item1 :=
        if flag = true ∧ item.remove_phase = "" then
          { item with remove_phase := activePhase }
        else item
      some (fun k => if k = key then some { item1 with checked := flag } else data k)
    else some data

/-- Embedding of `DefectListCtrl.count(phase)`: when a defect row is
selected (`selected` is the shelve key the widget selection resolves to)
and its record is unchecked, add one second to its `fix_time`.  The `phase`
argument is unused by the source body.  A selected key absent from the
store cannot arise (`key_map` values are store keys); the model leaves the
store unchanged in that vacuous branch. -/
def DefectListCtrl.count (data : DefectStore) (selected : Option String)
    (phase : String) : DefectStore :=
  match selected with
  | none => data
  | some key =>
    match data key with
    | none => data
    | some r =>
      if r.checked then data
      else fun k => if k = key then some { r with fix_time := r.fix_time + 1 } else data k

/-- Embedding of the `key is None` (creation) branch of
`DefectListCtrl.AddItem(item)`: the fresh `uuid.uuid1()` is the `newKey`
parameter, the item gets `_checked = False` (creation-path items carry no
`_checked` key) and its `uuid` field set, and is stored under the new key.
The reload branch (`key` given) only repopulates the widget and writes
nothing to the store, so it has no embedding. -/
def DefectListCtrl.AddItem (data : DefectStore) (item : DefectRecord)
    (newKey : String) : DefectStore :=
  fun k =>
    if k = newKey then some { item with uuid := newKey, checked := false }
    else data k

/-! ### Stopwatch state machine (`PSPMixin`) -/

/-- Externally visible side effects of the mixin, in order: timer control
calls and `psp_log_event` appends (each log line also carries a timestamp,
phase, uuid and comment; the event name identifies the line here). -/
inductive PSPAction where
  | timerStart
  | timerStop
  | logEvent (event : String)
deriving DecidableEq

/-- The mixin's mutable state: the interruption delta (`None` when not
paused), the two shelves, the widget selection state (`GetPSPPhase()`
result, with `""` for no selection, and the selected defect key), the
progress gauge, whether the recurring timer runs, and the effect trace. -/
structure PSPState where
  psp_interruption : Option Nat
  cells : Cells
  defects : DefectStore
  selectedDefect : Option String
  selectedPhase : String
  gauge : ℚ
  timerRunning : Bool
  trace : List PSPAction

/-- Embedding of `PSPMixin.OnStart`: start the recurring timer and log
`start` (toolbar enable/disable is UI-only). -/
def PSPMixin.OnStart (s : PSPState) : PSPState :=
  { s with timerRunning := true,
           trace := s.trace ++ [PSPAction.timerStart, PSPAction.logEvent "start"] }

/-- Embedding of `PSPMixin.OnPause`.  With an open interruption delta the
text-entry dialog is shown; `dialog = some message` models the user
confirming with that comment (then `PlanSummaryTable.comment` records it —
its `KeyError` propagates — and `resuming` is logged), `dialog = none`
models cancelling; either way the delta is then cleared.  With no open
delta a new delta starts at `0` and `pausing!` is logged. -/
def PSPMixin.OnPause (s : PSPState) (dialog : Option String) : Option PSPState :=
  match s.psp_interruption with
  | some delta =>
    (match dialog with
     | some message =>
       match PlanSummaryTable.comment s.cells s.selectedPhase message delta with
       | none => none
       | some cells2 =>
         some { s with cells := cells2,
                       trace := s.trace ++ [PSPAction.logEvent "resuming"] }
     | none => some s
    ).map (fun (s1 : PSPState) => { s1 with psp_interruption := none })
  | none =>
    some { s with psp_interruption := some 0,
                  trace := s.trace ++ [PSPAction.logEvent "pausing!"] }

/-- Embedding of `PSPMixin.OnStop`: stop the timer, log `stop`, and only
when the interruption delta is truthy (open and nonzero) run the
pause/resume transition.  Toolbar updates are UI-only. -/
def PSPMixin.OnStop (s : PSPState) (dialog : Option String) : Option PSPState :=
  let s1 := { s with timerRunning := false,
                     trace := s.trace ++ [PSPAction.timerStop, PSPAction.logEvent "stop"] }
  if pyTruthy s1.psp_interruption then PSPMixin.OnPause s1 dialog else some s1

/-- Embedding of `PSPMixin.TimerHandler` (the one-second tick): increment
the open interruption delta if any; when a phase is selected, tick the plan
summary table with the (updated) delta, set the gauge to `percent or 0`,
and when the delta is falsy also accrue fix time on the selected defect. -/
def PSPMixin.TimerHandler (s : PSPState) : PSPState :=
  let s1 :=
    match s.psp_interruption with
    | some n => { s with psp_interruption := some (n + 1) }
    | none => s
  let phase := s1.selectedPhase
  if phase ≠ "" then
    let res := PlanSummaryTable.count s1.cells phase s1.psp_interruption
    let s2 := { s1 with cells := res.1, gauge := pyOrZero res.2 }
    if pyTruthy s2.psp_interruption = false then
      { s2 with defects := DefectListCtrl.count s2.defects s2.selectedDefect phase }
    else s2
  else s1

/-! ### Helper lemmas -/

theorem setCell_same (cells : Cells) (phase : String) (d : PhaseRecord) :
    setCell cells phase d phase = some d := by
  simp [setCell]

theorem getPhase_setCell_same (cells : Cells) (phase : String) (d : PhaseRecord) :
    getPhase (setCell cells phase d) phase = d := by
  simp [getPhase, setCell]

theorem pyTruthy_none : pyTruthy none = false := rfl

theorem pyTruthy_succ (n : Nat) : pyTruthy (some (n + 1)) = true := by
  simp [pyTruthy]

theorem psp_phase_ne_empty (p : String) (hp : p ∈ PSP_PHASES) : p ≠ "" := by
  fin_cases hp <;> decide

/-! ### Concrete evaluation lemmas for the parser and formatter -/

theorem parse_time_five_m : parse_time "5m" = some 300 := by
  simp +decide [parse_time, parse_timeChars, parseFloatChars, parseFloatCore, stripChars,
    pySplit, pySplitAux, dedot, digitsToNat, isPyDigit, lowerChar]
  norm_num

theorem parse_time_one_point_five_h : parse_time "1.5h" = some 5400 := by
  simp +decide [parse_time, parse_timeChars, parseFloatChars, parseFloatCore, stripChars,
    pySplit, pySplitAux, dedot, digitsToNat, isPyDigit, lowerChar]
  norm_num

theorem parse_time_ninety : parse_time "90" = some 324000 := by
  simp +decide [parse_time, parse_timeChars, parseFloatChars, parseFloatCore, stripChars,
    pySplit, pySplitAux, dedot, digitsToNat, isPyDigit, lowerChar]
  norm_num

theorem parse_time_twelve_x : parse_time "12x" = some 43200 := by
  simp +decide [parse_time, parse_timeChars, parseFloatChars, parseFloatCore, stripChars,
    pySplit, pySplitAux, dedot, digitsToNat, isPyDigit, lowerChar]
  norm_num

theorem pretty_time_three_hundred : pretty_time 300 = "5 m" := by
  simp +decide [pretty_time, pyInt, format2]

theorem pretty_time_fiftyfour_hundred : pretty_time 5400 = "1.50 h" := by
  have h : round ((5400 : ℚ) / 3600 * 100) = 150 := by rw [round_eq]; norm_num
  simp +decide [pretty_time, pyInt, format2, h]

theorem pretty_time_ninety : pretty_time 90 = "1.50 m" := by
  have h : round ((90 : ℚ) / 60 * 100) = 150 := by rw [round_eq]; norm_num
  simp +decide [pretty_time, pyInt, format2, h]

/-! ### C3 -/

/-- C3 counterexample: the claim asserts `parse_duration("90") = 90`, but the
code parses a bare number with the hours factor, giving `324000`. -/
theorem roundtrip_bare_number_fails :
    parse_time "90" = some 324000 ∧ ¬ ((324000 : ℚ) = 90) :=
  ⟨parse_time_ninety, by norm_num⟩

/-- C3 (amended): composing parser and formatter on the representative
inputs gives `parse_duration("5m") = 300` with `format_duration(300) = "5 m"`,
`parse_duration("1.5h") = 5400` with `format_duration(5400) = "1.50 h"`, and
`format_duration(90) = "1.50 m"`, while `parse_duration("90") = 324000`
(a bare number is scaled by the hours factor, not treated as seconds). -/
theorem parse_pretty_representative_values :
    parse_time "5m" = some 300 ∧ pretty_time 300 = "5 m" ∧
    parse_time "1.5h" = some 5400 ∧ pretty_time 5400 = "1.50 h" ∧
    parse_time "90" = some 324000 ∧ pretty_time 90 = "1.50 m" :=
  ⟨parse_time_five_m, pretty_time_three_hundred, parse_time_one_point_five_h,
   pretty_time_fiftyfour_hundred, parse_time_ninety, pretty_time_ninety⟩

/-! ### C2 -/

/-- C2 counterexample: the claim says an absent, malformed or unknown unit
defaults to seconds (factor 1), so `"90"` should parse to `90` and `"12x"`
to `12`; the code's unit loop falls through to the hours factor instead. -/
theorem parse_time_default_not_seconds :
    parse_time "90" = some 324000 ∧ parse_time "12x" = some 43200 ∧
    ¬ ((324000 : ℚ) = 90) ∧ ¬ ((43200 : ℚ) = 12) :=
  ⟨parse_time_ninety, parse_time_twelve_x, by norm_num, by norm_num⟩

/-! ### C9 -/

/-- C9 counterexample: the claim says `record_comment` succeeds even for a
phase with no record in the store, but `PlanSummaryTable.comment` indexes
the shelve directly and raises `KeyError` (modelled as `none`) there. -/
theorem record_comment_missing_phase_fails :
    PlanSummaryTable.comment (fun _ => none) "design" "phone call" 3 = none := rfl

/-- C9 (amended): for every phase that already has a record in the store,
`record_comment(phase, text, duration)` succeeds and appends
`(text, duration)` to the end of that phase's comment sequence, leaving the
previously recorded comments, the phase's other metrics and every other
phase unchanged; for a phase with no record it raises `KeyError`. -/
theorem record_comment_appends (cells : Cells) (phase message : String)
    (delta : Nat) (d : PhaseRecord) (hp : cells phase = some d) :
    PlanSummaryTable.comment cells phase message delta =
      some (setCell cells phase { d with comments := d.comments ++ [(message, delta)] }) := by
  simp [PlanSummaryTable.comment, getPhase, hp]

/-- Witness for C9's amended theorem at a concrete store holding a record
for phase `code`. -/
theorem record_comment_appends_witness :
    PlanSummaryTable.comment
        (fun q => if q = "code" then some ({ plan := 2 } : PhaseRecord) else none)
        "code" "call" 3 =
      some (setCell
        (fun q => if q = "code" then some ({ plan := 2 } : PhaseRecord) else none)
        "code" { ({ plan := 2 } : PhaseRecord) with comments := [("call", 3)] }) :=
  record_comment_appends _ "code" "call" 3 _ rfl

/-! ### C8 -/

/-- C8 counterexample: calling `pause()` on a concrete Idle state (timer
stopped, no open interruption delta, empty trace) is not a no-op: it opens
an interruption delta at `0` and logs a `pausing!` event. -/
theorem pause_while_idle_not_noop :
    ((PSPMixin.OnPause
        { psp_interruption := none, cells := fun _ => none, defects := fun _ => none,
          selectedDefect := none, selectedPhase := "", gauge := 0,
          timerRunning := false, trace := [] }
        none).map (fun f => (f.psp_interruption, f.trace))) =
      some (some 0, [PSPAction.logEvent "pausing!"]) := rfl

/-- C8 (amended): calling `pause()` while the stopwatch is Idle is not
fatal (it returns normally), but it is not a no-op: the call opens an
interruption delta (setting the counter to `0`) and logs a `pausing!`
event.  (The UI keeps the pause tool disabled while Idle, so this cannot
be triggered from the toolbar.) -/
theorem pause_while_idle_opens_delta (s : PSPState) (dialog : Option String)
    (htimer : s.timerRunning = false) (hidle : s.psp_interruption = none) :
    PSPMixin.OnPause s dialog =
      some { s with psp_interruption := some 0,
                    trace := s.trace ++ [PSPAction.logEvent "pausing!"] } := by
  simp [PSPMixin.OnPause, hidle]

/-- Witness for C8's amended theorem at a concrete Idle state. -/
theorem pause_while_idle_opens_delta_witness :
    PSPMixin.OnPause
        { psp_interruption := none, cells := fun _ => none, defects := fun _ => none,
          selectedDefect := none, selectedPhase := "code", gauge := 0,
          timerRunning := false, trace := [] }
        (some "x") =
      some { psp_interruption := some 0, cells := fun _ => none, defects := fun _ => none,
             selectedDefect := none, selectedPhase := "code", gauge := 0,
             timerRunning := false, trace := [PSPAction.logEvent "pausing!"] } :=
  pause_while_idle_opens_delta _ (some "x") rfl rfl

/-! ### C5 -/

/-- C5: for a selected defect record, `accrue_fix_time` adds exactly one to
`fix_time` when the record is unchecked (all other fields and records are
untouched: the result is the pointwise update shown), and is a no-op
whenever the record is checked, no matter how often it is repeated. -/
theorem accrue_fix_time_behavior (data : DefectStore) (key phase : String)
    (r : DefectRecord) (m : ℕ) (hk : data key = some r) :
    (r.checked = false →
      DefectListCtrl.count data (some key) phase =
        fun k => if k = key then some { r with fix_time := r.fix_time + 1 } else data k) ∧
    (r.checked = true →
      (fun d => DefectListCtrl.count d (some key) phase)^[m] data = data) := by
  constructor
  · intro hc
    simp [DefectListCtrl.count, hk, hc]
  · intro hc
    have h1 : DefectListCtrl.count data (some key) phase = data := by
      simp [DefectListCtrl.count, hk, hc]
    exact Function.iterate_fixed h1 m

/-- Witness for C5 at a concrete store holding one default (unchecked)
record under key `u1`. -/
theorem accrue_fix_time_behavior_witness :
    ((({ } : DefectRecord).checked = false →
      DefectListCtrl.count (fun k => if k = "u1" then some { } else none) (some "u1") "code" =
        fun k => if k = "u1" then
            some { ({ } : DefectRecord) with fix_time := ({ } : DefectRecord).fix_time + 1 }
          else (if k = "u1" then some { } else none)) ∧
    (({ } : DefectRecord).checked = true →
      (fun d => DefectListCtrl.count d (some "u1") "code")^[5]
          (fun k => if k = "u1" then some { } else none) =
        fun k => if k = "u1" then some { } else none)) :=
  accrue_fix_time_behavior _ "u1" "code" _ 5 rfl

/-! ### C4 -/

/-- C4: `toggle_checked` fills `remove_phase` with the active phase on a
false-to-true transition of the checked flag when `remove_phase` is empty
(and changes nothing else, as the pointwise update shows); once
`remove_phase` is nonempty no call changes it; and a repeated call with
`checked = True` on an already-checked record leaves the store untouched. -/
theorem toggle_checked_sets_remove_phase_once (data : DefectStore)
    (key activePhase : String) (r : DefectRecord) (flag : Bool)
    (hk : data key = some r) :
    (r.checked = false → r.remove_phase = "" →
      DefectListCtrl.OnCheckItem data key true activePhase =
        some (fun k => if k = key then
            some { r with remove_phase := activePhase, checked := true }
          else data k)) ∧
    (r.remove_phase ≠ "" →
      ((DefectListCtrl.OnCheckItem data key flag activePhase).bind
          (fun d2 => d2 key)).map DefectRecord.remove_phase = some r.remove_phase) ∧
    (r.checked = true → DefectListCtrl.OnCheckItem data key true activePhase = some data) := by
  refine ⟨?_, ?_, ?_⟩
  · intro hc hrp
    simp [DefectListCtrl.OnCheckItem, hk, hc, hrp]
  · intro hrp
    by_cases hcf : r.checked = flag
    · simp [DefectListCtrl.OnCheckItem, hk, hcf]
    · simp [DefectListCtrl.OnCheckItem, hk, hcf, hrp]
  · intro hc
    simp [DefectListCtrl.OnCheckItem, hk, hc]

/-- Witness for C4 at a concrete store holding one default record (not
checked, empty `remove_phase`) under key `u1`. -/
theorem toggle_checked_sets_remove_phase_once_witness :
    ((({ } : DefectRecord).checked = false → ({ } : DefectRecord).remove_phase = "" →
      DefectListCtrl.OnCheckItem (fun k => if k = "u1" then some { } else none) "u1" true "test" =
        some (fun k => if k = "u1" then
            some { ({ } : DefectRecord) with remove_phase := "test", checked := true }
          else (if k = "u1" then some { } else none))) ∧
    ((({ } : DefectRecord).remove_phase ≠ "" →
      ((DefectListCtrl.OnCheckItem (fun k => if k = "u1" then some { } else none) "u1" false "test").bind
          (fun d2 => d2 "u1")).map DefectRecord.remove_phase =
        some ({ } : DefectRecord).remove_phase) ∧
    (({ } : DefectRecord).checked = true →
      DefectListCtrl.OnCheckItem (fun k => if k = "u1" then some { } else none) "u1" true "test" =
        some (fun k => if k = "u1" then some { } else none)))) :=
  toggle_checked_sets_remove_phase_once _ "u1" "test" _ false rfl

/-! ### C10 -/

/-- C10: across the defect-ledger operations, an existing record is either
left exactly as it was or changed in a way that preserves `uuid` and
`number` and never decreases `fix_time`: fix-time accrual yields the same
record or the record with `fix_time + 1`; a check/uncheck toggle yields the
same record, the record with only `checked` updated, or the record with
`checked` updated and `remove_phase` filled; adding a new defect under a
fresh key leaves every existing record in place. -/
theorem defect_record_fields_stable (data : DefectStore)
    (k key newKey phase activePhase : String) (r item : DefectRecord)
    (selected : Option String) (flag : Bool) (data2 : DefectStore)
    (hk : data k = some r) :
    (DefectListCtrl.count data selected phase k = some r ∨
     DefectListCtrl.count data selected phase k = some { r with fix_time := r.fix_time + 1 }) ∧
    (DefectListCtrl.OnCheckItem data key flag activePhase = some data2 →
      (data2 k = some r ∨ data2 k = some { r with checked := flag } ∨
       data2 k = some { r with remove_phase := activePhase, checked := flag })) ∧
    (data newKey = none → DefectListCtrl.AddItem data item newKey k = some r) := by
  refine ⟨?_, ?_, ?_⟩
  · rcases selected with _ | key2
    · left; simpa [DefectListCtrl.count] using hk
    · cases hdk : data key2 with
      | none => left; simp [DefectListCtrl.count, hdk, hk]
      | some r2 =>
        by_cases hc : r2.checked
        · left; simp [DefectListCtrl.count, hdk, hc, hk]
        · by_cases hkk : k = key2
          · subst hkk
            rw [hk] at hdk
            injection hdk with hir
            subst hir
            right; simp [DefectListCtrl.count, hk, hc]
          · left; simp [DefectListCtrl.count, hdk, hc, hkk, hk]
  · intro h2
    cases hdk : data key with
    | none =>
      simp only [DefectListCtrl.OnCheckItem, hdk] at h2
      exact Option.noConfusion h2
    | some item0 =>
      simp only [DefectListCtrl.OnCheckItem, hdk] at h2
      by_cases hcf : item0.checked ≠ flag
      · rw [if_pos hcf] at h2
        injection h2 with h2e
        by_cases hkk : k = key
        · subst hkk
          rw [hk] at hdk
          injection hdk with hir
          subst hir
          by_cases hcond : flag = true ∧ r.remove_phase = ""
          · right; right; rw [← h2e]; simp [hcond]
          · right; left; rw [← h2e]; simp [hcond]
        · left; rw [← h2e]; simp [hkk, hk]
      · rw [if_neg hcf] at h2
        injection h2 with h2e
        left; rw [← h2e]; exact hk
  · intro hnew
    have hne : k ≠ newKey := by
      intro he
      rw [he, hnew] at hk
      exact Option.noConfusion hk
    simp [DefectListCtrl.AddItem, hne, hk]

/-- Witness for C10 at a concrete store with one record under `u1` and a
fresh key `u2`; the toggle result store is spelled out. -/
theorem defect_record_fields_stable_witness :
    ((DefectListCtrl.count (fun k => if k = "u1" then some { } else none) (some "u1") "code" "u1" =
        some ({ } : DefectRecord) ∨
      DefectListCtrl.count (fun k => if k = "u1" then some { } else none) (some "u1") "code" "u1" =
        some { ({ } : DefectRecord) with fix_time := ({ } : DefectRecord).fix_time + 1 }) ∧
    ((DefectListCtrl.OnCheckItem (fun k => if k = "u1" then some { } else none) "u1" true "test" =
        some (fun k => if k = "u1" then
            some { ({ } : DefectRecord) with remove_phase := "test", checked := true }
          else none) →
      ((fun k => if k = "u1" then
            some { ({ } : DefectRecord) with remove_phase := "test", checked := true }
          else none) "u1" = some ({ } : DefectRecord) ∨
       (fun k => if k = "u1" then
            some { ({ } : DefectRecord) with remove_phase := "test", checked := true }
          else none) "u1" = some { ({ } : DefectRecord) with checked := true } ∨
       (fun k => if k = "u1" then
            some { ({ } : DefectRecord) with remove_phase := "test", checked := true }
          else none) "u1" = some { ({ } : DefectRecord) with remove_phase := "test", checked := true })) ∧
    ((fun k => if k = "u1" then some ({ } : DefectRecord) else none) "u2" = none →
      DefectListCtrl.AddItem (fun k => if k = "u1" then some { } else none) { } "u2" "u1" =
        some ({ } : DefectRecord)))) :=
  defect_record_fields_stable _ "u1" "u1" "u2" "code" "test" _ { } (some "u1") true _ rfl

/-! ### C6 -/

theorem count_iterate_actual (cells : Cells) (phase : String) (n : ℕ) :
    getPhase ((fun c => (PlanSummaryTable.count c phase none).1)^[n] cells) phase =
      { getPhase cells phase with actual := (getPhase cells phase).actual + n } := by
  induction n with
  | zero => simp
  | succ m ih =>
    rw [Function.iterate_succ_apply']
    set itc := (fun c => (PlanSummaryTable.count c phase none).1)^[m] cells with hitc
    simp only [PlanSummaryTable.count, pyTruthy, Bool.false_eq_true, ite_false,
      getPhase_setCell_same]
    rw [ih]
    simp only [PhaseRecord.mk.injEq, true_and, and_true]
    push_cast
    ring

/-- C6: starting from a phase whose `actual` counter is `0` and whose plan
is `p > 0`, the `(n+1)`-th `tick(phase, False)` call (the falsy-interruption
call `count(phase, None)`) returns exactly `100 * (n+1) / p`; and for any
store whose plan for the phase is zero (or absent, which reads as zero) the
call returns nothing. -/
theorem tick_returns_percent_of_plan (cells cells0 : Cells) (phase : String)
    (p : ℚ) (n : ℕ)
    (hplan : (getPhase cells phase).plan = p) (hp : 0 < p)
    (hactual : (getPhase cells phase).actual = 0)
    (hplan0 : (getPhase cells0 phase).plan = 0) :
    (PlanSummaryTable.count ((fun c => (PlanSummaryTable.count c phase none).1)^[n] cells)
        phase none).2 = some (100 * ((n : ℚ) + 1) / p) ∧
    (PlanSummaryTable.count cells0 phase none).2 = none := by
  have hpne : p ≠ 0 := ne_of_gt hp
  have htr : pyTruthyQ p = true := by simp [pyTruthyQ, hpne]
  constructor
  · have hiter := count_iterate_actual cells phase n
    set itc := (fun c => (PlanSummaryTable.count c phase none).1)^[n] cells with hitc
    simp only [PlanSummaryTable.count, pyTruthy, Bool.false_eq_true, ite_false,
      hiter, hplan, hactual, htr, ite_true]
    rw [Option.some.injEq]
    field_simp
    ring
  · simp [PlanSummaryTable.count, pyTruthy, pyTruthyQ, hplan0]

/-- Witness for C6: with `plan = 2` and two ticks, the second tick returns
`100 * 2 / 2 = 100`; a store with no record for the phase returns nothing. -/
theorem tick_returns_percent_of_plan_witness :
    (PlanSummaryTable.count
        ((fun c => (PlanSummaryTable.count c "code" none).1)^[1]
          (fun q => if q = "code" then some ({ plan := 2 } : PhaseRecord) else none))
        "code" none).2 = some (100 * ((1 : ℚ) + 1) / 2) ∧
    (PlanSummaryTable.count (fun _ => none) "code" none).2 = none := by
  refine tick_returns_percent_of_plan _ _ "code" 2 1 ?_ ?_ ?_ ?_
  · simp [getPhase]
  · norm_num
  · simp [getPhase]
  · simp [getPhase]

/-! ### C7 -/

/-- C7 counterexample, in two parts.  First, on a concrete state whose open
interruption delta is `0` (pause immediately followed by stop), `stop()`
does not perform the pause/resume transition at all: the delta stays open
(`some 0`) and no `resuming` event is logged, refuting "an interruption
delta of any size including zero".  Second, on a state with delta `2` the
effect trace shows the tick cancellation and the `stop` log happening
before the resume, refuting "first performs the pause→resume transition
... before cancelling the recurring tick". -/
theorem stop_zero_delta_not_resumed :
    ((PSPMixin.OnStop
        { psp_interruption := some 0, cells := fun _ => none, defects := fun _ => none,
          selectedDefect := none, selectedPhase := "code", gauge := 0,
          timerRunning := true, trace := [] }
        (some "msg")).map (fun f => (f.psp_interruption, f.trace))) =
      some (some 0, [PSPAction.timerStop, PSPAction.logEvent "stop"]) ∧
    ((PSPMixin.OnStop
        { psp_interruption := some 2,
          cells := fun q => if q = "code" then some ({ plan := 5 } : PhaseRecord) else none,
          defects := fun _ => none, selectedDefect := none, selectedPhase := "code",
          gauge := 0, timerRunning := true, trace := [] }
        (some "msg")).map (fun f => f.trace)) =
      some [PSPAction.timerStop, PSPAction.logEvent "stop", PSPAction.logEvent "resuming"] := by
  exact ⟨rfl, rfl⟩

/-- C7 (amended): when `stop()` is called with a nonzero open interruption
delta and the current phase has a ledger record (so the comment store-back
succeeds), it first cancels the recurring tick and logs `stop`, and then
performs the pause/resume transition synchronously — recording the
interruption comment against the current phase and clearing the delta —
before returning to Idle.  (A zero-size open delta is not resumed: see the
counterexample.) -/
theorem stop_resumes_nonzero_interruption (s : PSPState) (k : ℕ) (message : String)
    (d : PhaseRecord) (hdelta : s.psp_interruption = some (k + 1))
    (hcell : s.cells s.selectedPhase = some d) :
    PSPMixin.OnStop s (some message) =
      some { s with
        timerRunning := false,
        psp_interruption := none,
        cells := setCell s.cells s.selectedPhase
          { d with comments := d.comments ++ [(message, k + 1)] },
        trace := s.trace ++ [PSPAction.timerStop, PSPAction.logEvent "stop",
                             PSPAction.logEvent "resuming"] } := by
  simp [PSPMixin.OnStop, PSPMixin.OnPause, PlanSummaryTable.comment, getPhase, pyTruthy,
    hdelta, hcell]

/-- Witness for C7's amended theorem at a concrete state with delta `2` and
a stored record for the selected phase `code`. -/
theorem stop_resumes_nonzero_interruption_witness :
    PSPMixin.OnStop
        { psp_interruption := some (1 + 1),
          cells := fun q => if q = "code" then some ({ plan := 5 } : PhaseRecord) else none,
          defects := fun _ => none, selectedDefect := none, selectedPhase := "code",
          gauge := 0, timerRunning := true, trace := [] }
        (some "msg") =
      some { psp_interruption := none,
             cells := setCell (fun q => if q = "code" then some ({ plan := 5 } : PhaseRecord) else none)
               "code" { ({ plan := 5 } : PhaseRecord) with
                          comments := ({ plan := 5 } : PhaseRecord).comments ++ [("msg", 1 + 1)] },
             defects := fun _ => none, selectedDefect := none, selectedPhase := "code",
             gauge := 0, timerRunning := false,
             trace := [PSPAction.timerStop, PSPAction.logEvent "stop",
                       PSPAction.logEvent "resuming"] } :=
  stop_resumes_nonzero_interruption _ 1 "msg" _ rfl rfl

/-! ### C1 -/

/-- C1: from any state with a phase selected and that phase's `actual` and
`interruption` counters at `0`, and the stopwatch not interrupted, the
sequence `start(); on_tick(); on_tick(); stop()` ends with `actual = 2`
and `interruption = 0`, and the sequence
`start(); pause(); on_tick(); on_tick(); pause(); on_tick(); stop()` ends
with `actual = 1` and `interruption = 2` (whatever the user does with the
interruption-comment dialogs). -/
theorem stopwatch_sequences (s : PSPState) (p : String)
    (dlgA dlg1 dlg2 dlg3 : Option String)
    (hidle : s.psp_interruption = none) (hphase : s.selectedPhase = p)
    (hmem : p ∈ PSP_PHASES)
    (hactual : (getPhase s.cells p).actual = 0)
    (hinterr : (getPhase s.cells p).interruption = 0) :
    ((PSPMixin.OnStop (PSPMixin.TimerHandler (PSPMixin.TimerHandler (PSPMixin.OnStart s))) dlgA).map
        (fun f => ((getPhase f.cells p).actual, (getPhase f.cells p).interruption))) =
      some (2, 0) ∧
    (((PSPMixin.OnPause (PSPMixin.OnStart s) dlg1).bind (fun s1 =>
        (PSPMixin.OnPause (PSPMixin.TimerHandler (PSPMixin.TimerHandler s1)) dlg2).bind (fun s3 =>
          PSPMixin.OnStop (PSPMixin.TimerHandler s3) dlg3))).map
        (fun f => ((getPhase f.cells p).actual, (getPhase f.cells p).interruption))) =
      some (1, 2) := by
  have hne : p ≠ "" := psp_phase_ne_empty p hmem
  subst hphase
  constructor
  · simp [PSPMixin.OnStart, PSPMixin.TimerHandler, PSPMixin.OnStop, PlanSummaryTable.count,
      pyTruthy, pyOrZero, hidle, hne, getPhase_setCell_same, hactual, hinterr]
    norm_num
  · rcases dlg2 with _ | msg
    · simp [PSPMixin.OnStart, PSPMixin.TimerHandler, PSPMixin.OnStop, PSPMixin.OnPause,
        PlanSummaryTable.count, pyTruthy, pyOrZero, hidle, hne, getPhase_setCell_same,
        setCell_same, hactual, hinterr]
      norm_num
    · simp [PSPMixin.OnStart, PSPMixin.TimerHandler, PSPMixin.OnStop, PSPMixin.OnPause,
        PlanSummaryTable.count, PlanSummaryTable.comment, pyTruthy, pyOrZero, hidle, hne,
        getPhase_setCell_same, setCell_same, hactual, hinterr]
      norm_num

/-- Witness for C1 at a fresh concrete state (phase `code` selected, empty
stores), with the resume dialog answered with `phone call`. -/
theorem stopwatch_sequences_witness :
    ((PSPMixin.OnStop (PSPMixin.TimerHandler (PSPMixin.TimerHandler (PSPMixin.OnStart
        { psp_interruption := none, cells := fun _ => none, defects := fun _ => none,
          selectedDefect := none, selectedPhase := "code", gauge := 0,
          timerRunning := false, trace := [] }))) none).map
        (fun f => ((getPhase f.cells "code").actual, (getPhase f.cells "code").interruption))) =
      some (2, 0) ∧
    (((PSPMixin.OnPause (PSPMixin.OnStart
        { psp_interruption := none, cells := fun _ => none, defects := fun _ => none,
          selectedDefect := none, selectedPhase := "code", gauge := 0,
          timerRunning := false, trace := [] }) none).bind (fun s1 =>
        (PSPMixin.OnPause (PSPMixin.TimerHandler (PSPMixin.TimerHandler s1)) (some "phone call")).bind
          (fun s3 => PSPMixin.OnStop (PSPMixin.TimerHandler s3) none))).map
        (fun f => ((getPhase f.cells "code").actual, (getPhase f.cells "code").interruption))) =
      some (1, 2) :=
  stopwatch_sequences
    { psp_interruption := none, cells := fun _ => none, defects := fun _ => none,
      selectedDefect := none, selectedPhase := "code", gauge := 0,
      timerRunning := false, trace := [] }
    "code" none none (some "phone call") none rfl rfl (by decide) rfl rfl

/-! ### Character and list lemmas for the parser -/

theorem goodChar_spec (c : Char) (h : goodChar c = true) :
    lowerChar c = c ∧ c.isWhitespace = false ∧ c ≠ ' ' := by
  simp only [goodChar, isPyDigit, Bool.or_eq_true, decide_eq_true_eq] at h
  rcases h with ((((((((((((h | h) | h) | h) | h) | h) | h) | h) | h) | h) | h) | h) | h) | h <;>
    subst h <;> exact ⟨by decide, by decide, by decide⟩

theorem dropWhile_nonws (l : List Char) (h : ∀ c ∈ l, c.isWhitespace = false) :
    l.dropWhile Char.isWhitespace = l := by
  cases l with
  | nil => rfl
  | cons a as =>
    have ha := h a (List.mem_cons_self a as)
    rw [List.dropWhile_cons, if_neg (by simp [ha])]

theorem stripChars_nonws (l : List Char) (h : ∀ c ∈ l, c.isWhitespace = false) :
    stripChars l = l := by
  unfold stripChars
  rw [dropWhile_nonws l h,
      dropWhile_nonws _ (fun c hc => h c (List.mem_reverse.mp hc)),
      List.reverse_reverse]

theorem stripChars_eq_self (l : List Char)
    (h1 : ∀ c, l.head? = some c → c.isWhitespace = false)
    (h2 : ∀ c, l.getLast? = some c → c.isWhitespace = false) :
    stripChars l = l := by
  cases l with
  | nil => rfl
  | cons a as =>
    have ha := h1 a rfl
    unfold stripChars
    rw [List.dropWhile_cons, if_neg (by simp [ha])]
    cases hr : (a :: as).reverse with
    | nil => simp at hr
    | cons b bs =>
      have hb : (a :: as).getLast? = some b := by
        rw [← List.head?_reverse, hr]; rfl
      have hbws := h2 b hb
      rw [List.dropWhile_cons, if_neg (by simp [hbws]), ← hr, List.reverse_reverse]

theorem map_lowerChar_good (l : List Char) (h : ∀ c ∈ l, goodChar c = true) :
    l.map lowerChar = l := by
  induction l with
  | nil => rfl
  | cons a as ih =>
    have ha := (goodChar_spec a (h a (List.mem_cons_self a as))).1
    rw [List.map_cons, ha, ih (fun c hc => h c (List.mem_cons_of_mem a hc))]

theorem not_hasSpace (l : List Char) (h : ∀ c ∈ l, goodChar c = true) :
    l.any (· = ' ') = false := by
  rw [List.any_eq_false]
  intro c hc
  have := (goodChar_spec c (h c hc)).2.2
  simp [this]

theorem pySplitAux_nonws (t : List Char) (h : ∀ c ∈ t, c.isWhitespace = false) :
    ∀ rest acc, pySplitAux (t ++ rest) acc = pySplitAux rest (t.reverse ++ acc) := by
  induction t with
  | nil => intro rest acc; simp
  | cons a as ih =>
    intro rest acc
    have ha := h a (List.mem_cons_self a as)
    simp only [List.cons_append, pySplitAux]
    rw [if_neg (by simp [ha]), List.append_eq,
        ih (fun c hc => h c (List.mem_cons_of_mem a hc)) rest (a :: acc)]
    congr 1
    simp

theorem pySplit_pair (t : List Char) (u : Char) (ht : t ≠ [])
    (h : ∀ c ∈ t, c.isWhitespace = false) (hu : u.isWhitespace = false) :
    pySplit (t ++ [' ', u]) = [t, [u]] := by
  unfold pySplit
  rw [pySplitAux_nonws t h [' ', u] []]
  rw [List.append_nil]
  simp only [pySplitAux]
  rw [if_pos (by decide), if_neg (by simpa using ht)]
  rw [if_neg (by simp [hu]), if_neg (by simp)]
  simp

theorem good_append_digit (t0 : List Char) (d : Char)
    (hchars : ∀ a ∈ t0, goodChar a = true) (hd : isPyDigit d = true) :
    ∀ a ∈ t0 ++ [d], goodChar a = true := by
  intro a ha
  rcases List.mem_append.mp ha with h1 | h1
  · exact hchars a h1
  · simp only [List.mem_singleton] at h1
    subst h1
    simp [goodChar, hd]

theorem parse_time_suffix (t0 : List Char) (d u : Char)
    (hchars : ∀ a ∈ t0, goodChar a = true) (hd : isPyDigit d = true)
    (huws : u.isWhitespace = false) (hulower : lowerChar u = u)
    (hudigit : isPyDigit u = false) (huspace : u ≠ ' ') :
    parse_timeChars (t0 ++ [d] ++ [u]) =
      (parseFloatChars (dedot (t0 ++ [d]))).map
        (· * (if [u] = ['s'] then (1 : ℚ) else if [u] = ['m'] then 60 else 3600)) := by
  have htg := good_append_digit t0 d hchars hd
  have hallws : ∀ a ∈ t0 ++ [d] ++ [u], a.isWhitespace = false := by
    intro a ha
    rcases List.mem_append.mp ha with h1 | h1
    · exact (goodChar_spec a (htg a h1)).2.1
    · simp only [List.mem_singleton] at h1
      subst h1
      exact huws
  have hstrip : stripChars (t0 ++ [d] ++ [u]) = t0 ++ [d] ++ [u] :=
    stripChars_nonws _ hallws
  have hmap : (t0 ++ [d] ++ [u]).map lowerChar = t0 ++ [d] ++ [u] := by
    rw [List.map_append, map_lowerChar_good _ htg, List.map_singleton, hulower]
  have hany : (t0 ++ [d] ++ [u]).any (· = ' ') = false := by
    rw [List.any_append, not_hasSpace _ htg]
    simp [huspace]
  have hne : t0 ++ [d] ++ [u] ≠ [] := by simp
  simp only [parse_timeChars, hstrip, hmap, if_neg hne, hany, Bool.false_eq_true,
    ite_false, List.reverse_append, List.reverse_cons, List.reverse_nil, List.nil_append,
    List.singleton_append, hudigit, List.reverse_reverse]

theorem parse_time_bare (t0 : List Char) (d : Char)
    (hchars : ∀ a ∈ t0, goodChar a = true) (hd : isPyDigit d = true) :
    parse_timeChars (t0 ++ [d]) =
      (parseFloatChars (dedot (t0 ++ [d]))).map (· * (3600 : ℚ)) := by
  have htg := good_append_digit t0 d hchars hd
  have hallws : ∀ a ∈ t0 ++ [d], a.isWhitespace = false :=
    fun a ha => (goodChar_spec a (htg a ha)).2.1
  have hstrip : stripChars (t0 ++ [d]) = t0 ++ [d] := stripChars_nonws _ hallws
  have hmap : (t0 ++ [d]).map lowerChar = t0 ++ [d] := map_lowerChar_good _ htg
  have hany : (t0 ++ [d]).any (· = ' ') = false := not_hasSpace _ htg
  have hne : t0 ++ [d] ≠ [] := by simp
  have hfac : ∀ q : ℚ, (if ([] : List Char) = ['s'] then (1 : ℚ)
      else if ([] : List Char) = ['m'] then 60 else 3600) = 3600 := by
    intro q
    simp
  simp only [parse_timeChars, hstrip, hmap, if_neg hne, hany, Bool.false_eq_true,
    ite_false, List.reverse_append, List.reverse_cons, List.reverse_nil, List.nil_append,
    List.singleton_append, hd, ite_true, List.reverse_reverse]
  simp

theorem parse_time_space_unit (t0 : List Char) (d u : Char)
    (hchars : ∀ a ∈ t0, goodChar a = true) (hd : isPyDigit d = true)
    (huws : u.isWhitespace = false) (hulower : lowerChar u = u) (huspace : u ≠ ' ') :
    parse_timeChars (t0 ++ [d] ++ [' ', u]) =
      (parseFloatChars (dedot (t0 ++ [d]))).map
        (· * (if [u] = ['s'] then (1 : ℚ) else if [u] = ['m'] then 60 else 3600)) := by
  have htg := good_append_digit t0 d hchars hd
  have htws : ∀ a ∈ t0 ++ [d], a.isWhitespace = false :=
    fun a ha => (goodChar_spec a (htg a ha)).2.1
  have hstrip : stripChars (t0 ++ [d] ++ [' ', u]) = t0 ++ [d] ++ [' ', u] := by
    refine stripChars_eq_self _ ?_ ?_
    · intro c hc
      cases t0 with
      | nil =>
        simp only [List.nil_append, List.cons_append, List.head?_cons,
          Option.some.injEq] at hc
        subst hc
        exact htws d (by simp)
      | cons a as =>
        simp only [List.cons_append, List.head?_cons, Option.some.injEq] at hc
        subst hc
        exact htws a (by simp)
    · intro c hc
      rw [show (t0 ++ [d] ++ [' ', u] : List Char) = (t0 ++ [d] ++ [' ']) ++ [u] by simp] at hc
      rw [List.getLast?_concat] at hc
      injection hc with hc
      subst hc
      exact huws
  have hmap : (t0 ++ [d] ++ [' ', u]).map lowerChar = t0 ++ [d] ++ [' ', u] := by
    rw [List.map_append, map_lowerChar_good _ htg]
    simp only [List.map_cons, List.map_nil, hulower,
      show lowerChar ' ' = ' ' from by decide]
  have hany : (t0 ++ [d] ++ [' ', u]).any (· = ' ') = true := by
    rw [List.any_append]
    simp
  have hne : t0 ++ [d] ++ [' ', u] ≠ [] := by simp
  have hsplit : pySplit (t0 ++ [d] ++ [' ', u]) = [t0 ++ [d], [u]] :=
    pySplit_pair (t0 ++ [d]) u (by simp) htws huws
  simp only [parse_timeChars, hstrip, hmap, if_neg hne, hany, ite_true, hsplit]

/-- C2 (amended): `parse_duration` returns `0` for the empty string, and for
every input consisting of a number (digit/point/comma/sign characters,
ending in a digit, parseable as a float after comma-to-point replacement)
followed by an optional single-letter unit suffix — attached directly or
separated by one space — it scales the number by `1` for `s`, `60` for `m`
and `3600` for `h`, and by `3600` (the hours factor, from the unit loop's
fall-through) when the unit is absent or is any other non-digit character;
the decimal comma is accepted as a decimal point (the hypothesis evaluates
the number after `dedot`). -/
theorem parse_time_unit_factors (t0 : List Char) (d c : Char) (v : ℚ)
    (hchars : ∀ a ∈ t0, goodChar a = true) (hd : isPyDigit d = true)
    (hv : parseFloatChars (dedot (t0 ++ [d])) = some v)
    (hcws : c.isWhitespace = false) (hclower : lowerChar c = c)
    (hcdigit : isPyDigit c = false) (hcspace : c ≠ ' ')
    (hcs : c ≠ 's') (hcm : c ≠ 'm') (hch : c ≠ 'h') :
    parse_timeChars [] = some 0 ∧
    parse_timeChars (t0 ++ [d]) = some (v * 3600) ∧
    parse_timeChars (t0 ++ [d] ++ ['s']) = some (v * 1) ∧
    parse_timeChars (t0 ++ [d] ++ ['m']) = some (v * 60) ∧
    parse_timeChars (t0 ++ [d] ++ ['h']) = some (v * 3600) ∧
    parse_timeChars (t0 ++ [d] ++ [' ', 's']) = some (v * 1) ∧
    parse_timeChars (t0 ++ [d] ++ [' ', 'm']) = some (v * 60) ∧
    parse_timeChars (t0 ++ [d] ++ [' ', 'h']) = some (v * 3600) ∧
    parse_timeChars (t0 ++ [d] ++ [c]) = some (v * 3600) := by
  refine ⟨rfl, ?_, ?_, ?_, ?_, ?_, ?_, ?_, ?_⟩
  · rw [parse_time_bare t0 d hchars hd, hv]
    rfl
  · rw [parse_time_suffix t0 d 's' hchars hd (by decide) (by decide) (by decide) (by decide), hv]
    simp
  · rw [parse_time_suffix t0 d 'm' hchars hd (by decide) (by decide) (by decide) (by decide), hv]
    simp
  · rw [parse_time_suffix t0 d 'h' hchars hd (by decide) (by decide) (by decide) (by decide), hv]
    simp
  · rw [parse_time_space_unit t0 d 's' hchars hd (by decide) (by decide) (by decide), hv]
    simp
  · rw [parse_time_space_unit t0 d 'm' hchars hd (by decide) (by decide) (by decide), hv]
    simp
  · rw [parse_time_space_unit t0 d 'h' hchars hd (by decide) (by decide) (by decide), hv]
    simp
  · rw [parse_time_suffix t0 d c hchars hd hcws hclower hcdigit hcspace, hv]
    simp [hcs, hcm]

/-- Witness for C2's amended theorem at the number `9` (characters `['9']`)
and the unknown unit `x`. -/
theorem parse_time_unit_factors_witness :
    parse_timeChars [] = some 0 ∧
    parse_timeChars ([] ++ ['9']) = some ((9 : ℚ) * 3600) ∧
    parse_timeChars ([] ++ ['9'] ++ ['s']) = some ((9 : ℚ) * 1) ∧
    parse_timeChars ([] ++ ['9'] ++ ['m']) = some ((9 : ℚ) * 60) ∧
    parse_timeChars ([] ++ ['9'] ++ ['h']) = some ((9 : ℚ) * 3600) ∧
    parse_timeChars ([] ++ ['9'] ++ [' ', 's']) = some ((9 : ℚ) * 1) ∧
    parse_timeChars ([] ++ ['9'] ++ [' ', 'm']) = some ((9 : ℚ) * 60) ∧
    parse_timeChars ([] ++ ['9'] ++ [' ', 'h']) = some ((9 : ℚ) * 3600) ∧
    parse_timeChars ([] ++ ['9'] ++ ['x']) = some ((9 : ℚ) * 3600) :=
  parse_time_unit_factors [] '9' 'x' 9 (by simp) (by decide)
    (by simp +decide [parseFloatChars, parseFloatCore, stripChars, dedot, digitsToNat, isPyDigit])
    (by decide) (by decide) (by decide) (by decide) (by decide) (by decide) (by decide)
